import Mathlib

/-!
Verification development for the incremental code-indexing system.

The definitions below are a shallow embedding of the repository sources:

* `packages/core/src/vectordb/azure-ai-search.ts` — the
  `AzureAISearchVectorDatabase` adapter (collection creation, insert,
  search, delete, query, file-path enumeration);
* the alias-swap reindexing script (`indexCodePathForRepo`,
  `switchAzureAISearchAlias`, `generateSnapshot`) and its throttled
  progress-logging callback.

External collaborators (the Azure AI Search backend, `JSON.parse` and
`JSON.stringify`, the embedding provider) are modelled as explicit
function parameters, so every adapter method is a pure Lean function of
its inputs and of the backend responses.  Vector components are modelled
as rationals; machine floats never influence the control flow under
study.  Stateful effects (HTTP calls, sleeps, index deletion) are
modelled as explicit event traces.
-/

namespace CodeAgent

/-! ### JavaScript string lowercasing

`collectionName.toLowerCase()` in the adapter is modelled by mapping the
core ASCII lowercasing over the characters of the string. -/

/-- Model of the JavaScript `String.prototype.toLowerCase` call applied to
collection names (ASCII letters, which is what collection names use). -/
def jsLower (s : String) : String := ⟨s.data.map Char.toLower⟩

/-! ### Substring test for the collection-limit classifier

`createCollection` classifies a backend error by testing its message with
the regular expression `/limit|quota|exceeded/i`. -/

/-- Does `need` occur as a contiguous substring of the character list? -/
def hasSub (need : List Char) : List Char → Bool
  | [] => need.isEmpty
  | c :: t => need.isPrefixOf (c :: t) || hasSub need t

/-- Model of the test `/limit|quota|exceeded/i.test(errorMessage)` from
`createCollection`: a case-insensitive substring search for any of the
three alternatives. -/
def limitTest (errorMessage : String) : Bool :=
  let m := (jsLower errorMessage).data
  hasSub "limit".data m || hasSub "quota".data m || hasSub "exceeded".data m

/-! ### Collection creation -/

/-- The part of the Azure index schema built by `createCollection` that the
claims depend on: the (lowercased) index name and the vector dimension
recorded on the `contentVector` field. -/
structure IndexSchema where
  name : String
  vectorSearchDimensions : Nat
deriving DecidableEq

/-- Outcome of `createCollection`: either the distinct collection-limit
condition (the adapter throws the `COLLECTION_LIMIT_MESSAGE` constant) or
the original backend error, rethrown. -/
inductive CreateCollectionError where
  | collectionLimit
  | generic (message : String)
deriving DecidableEq

/-- Shallow embedding of `AzureAISearchVectorDatabase.createCollection`.
`createOrUpdateIndex` is the backend call of the Azure SDK client; on a
backend error the adapter throws `COLLECTION_LIMIT_MESSAGE` when the
message matches `/limit|quota|exceeded/i` and rethrows the original error
otherwise. -/
def createCollection (createOrUpdateIndex : IndexSchema → Except String Unit)
    (collectionName : String) (dimension : Nat) : Except CreateCollectionError Unit :=
  match createOrUpdateIndex ⟨jsLower collectionName, dimension⟩ with
  | .ok _ => .ok ()
  | .error msg =>
    if limitTest msg then .error .collectionLimit else .error (.generic msg)

/-! ### Constructor and endpoint normalization -/

/-- Configuration record accepted by the constructor (`AzureAISearchConfig`). -/
structure AzureAISearchConfig where
  endpoint : String
  apiKey : String
  apiVersion : Option String
deriving DecidableEq

/-- Endpoint normalization performed both in the constructor and in
`getSearchClient`: remove a single trailing slash
(`endpoint.replace` of the anchored slash pattern) and prepend
`https://` when the result does not already start with it. -/
def normalizeEndpoint (e : String) : String :=
  let e1 := if e.data.getLast? = some '/' then String.mk e.data.dropLast else e
  if "https://".data.isPrefixOf e1.data then e1 else "https://" ++ e1

/-- The state a successfully constructed `AzureAISearchVectorDatabase`
holds: its config (with the defaulted api version) and the endpoint the
`SearchIndexClient` was built with. -/
structure AzureAISearchVectorDatabase where
  config : AzureAISearchConfig
  indexClientEndpoint : String
deriving DecidableEq

/-- Shallow embedding of the `AzureAISearchVectorDatabase` constructor:
defaults the api version, throws when endpoint or apiKey is empty (the
only falsy strings), then normalizes the endpoint for the index client. -/
def mkAzureAISearchVectorDatabase (config : AzureAISearchConfig) :
    Except String AzureAISearchVectorDatabase :=
  let config2 : AzureAISearchConfig :=
    { config with apiVersion := some (config.apiVersion.getD "2024-07-01") }
  if config2.endpoint = "" ∨ config2.apiKey = "" then
    .error "Azure AI Search endpoint and apiKey are required"
  else
    .ok { config := config2, indexClientEndpoint := normalizeEndpoint config2.endpoint }

/-- Shallow embedding of `getSearchClient`: recomputes the normalized
endpoint from the stored config and pairs it with the index name the
`SearchClient` is created for. -/
def getSearchClient (db : AzureAISearchVectorDatabase) (indexName : String) :
    String × String :=
  let endpoint := normalizeEndpoint db.config.endpoint
  (endpoint, indexName)

/-! ### Documents and insert -/

/-- The `VectorDocument` shape consumed by `insert`.  The metadata payload
type `M` is abstract; `insert` serializes it with the external
`JSON.stringify`, passed in as a parameter. -/
structure VectorDocument (M : Type) where
  id : String
  vector : List ℚ
  content : String
  relativePath : String
  startLine : ℤ
  endLine : ℤ
  fileExtension : String
  metadata : M

/-- The record shape `insert` sends to the Azure index (the field mapping
built in `documents.map` inside `insert`). -/
structure AzureRecord where
  id : String
  content : String
  contentVector : List ℚ
  relativePath : String
  startLine : ℤ
  endLine : ℤ
  fileExtension : String
  metadata : String
deriving DecidableEq

/-- The transformation `insert` applies to each `VectorDocument` before
uploading: identity on scalar fields, the vector stored under
`contentVector`, and the metadata serialized to a JSON string. -/
def toAzureDoc {M : Type} (stringify : M → String) (doc : VectorDocument M) : AzureRecord :=
  { id := doc.id
    content := doc.content
    contentVector := doc.vector
    relativePath := doc.relativePath
    startLine := doc.startLine
    endLine := doc.endLine
    fileExtension := doc.fileExtension
    metadata := stringify doc.metadata }

/-- One step of the Azure `uploadDocuments` upsert: a record replaces the
stored record sharing its id, or is appended when the id is new.  This is
the documented insert-or-replace semantics of the upload action that
`insert` relies on. -/
def upsertOne (st : List AzureRecord) (r : AzureRecord) : List AzureRecord :=
  if st.any (fun x => x.id == r.id) then
    st.map (fun x => if x.id == r.id then r else x)
  else
    st ++ [r]

/-- The Azure `searchClient.uploadDocuments` batch call: upserts the
records left to right. -/
def uploadDocuments (st : List AzureRecord) (rs : List AzureRecord) : List AzureRecord :=
  rs.foldl upsertOne st

/-- Shallow embedding of `AzureAISearchVectorDatabase.insert` acting on a
store mapping index names to their record lists: the documents are mapped
to Azure records and uploaded into the lowercased collection. -/
def insert {M : Type} (store : String → List AzureRecord) (stringify : M → String)
    (collectionName : String) (documents : List (VectorDocument M)) :
    String → List AzureRecord :=
  fun k =>
    if k = jsLower collectionName then
      uploadDocuments (store (jsLower collectionName)) (documents.map (toAzureDoc stringify))
    else store k

/-- Look up the stored record for a given document id. -/
def findById (st : List AzureRecord) (i : String) : Option AzureRecord :=
  st.find? (fun x => x.id == i)

/-! ### Remaining name-keyed operations -/

/-- Shallow embedding of `dropCollection`: delete the lowercased index. -/
def dropCollection (deleteIndex : String → Except String Unit)
    (collectionName : String) : Except String Unit :=
  deleteIndex (jsLower collectionName)

/-- A backend error carrying the HTTP status code the adapter inspects. -/
structure AzureError where
  statusCode : Option Nat
  message : String
deriving DecidableEq

/-- Shallow embedding of `hasCollection`: `getIndex` on the lowercased
name; a 404 yields `false`, success yields `true`, any other error is
rethrown. -/
def hasCollection (getIndex : String → Except AzureError Unit)
    (collectionName : String) : Except AzureError Bool :=
  match getIndex (jsLower collectionName) with
  | .ok _ => .ok true
  | .error e => if e.statusCode = some 404 then .ok false else .error e

/-- The per-id batch entry `delete` uploads (`@search.action: "delete"`). -/
structure DeleteAction where
  id : String
  searchAction : String
deriving DecidableEq

/-- Shallow embedding of `AzureAISearchVectorDatabase.delete`: upload a
delete action per id into the lowercased collection. -/
def delete (upload : String → List DeleteAction → Except String Unit)
    (collectionName : String) (ids : List String) : Except String Unit :=
  upload (jsLower collectionName) (ids.map (fun i => ⟨i, "delete"⟩))

/-! ### Search -/

/-- A document as stored in the Azure index, read back by `search`,
`query` and `listFilePaths`.  Every field is optional: the adapter must
cope with records missing any of them. -/
structure RawDoc where
  id : Option String
  content : Option String
  relativePath : Option String
  startLine : Option ℤ
  endLine : Option ℤ
  fileExtension : Option String
  metadata : Option String
deriving DecidableEq

/-- The `SearchOptions` argument of `search` (fields the adapter reads). -/
structure SearchOptions where
  topK : Option Nat
  type : Option String
  filterExpr : Option String
  queryText : Option String
deriving DecidableEq

/-- A vector query entry of the Azure request (`kind`, `vector`, `k`,
`fields`). -/
structure VectorQueryModel where
  kind : String
  vector : List ℚ
  k : Nat
  fields : String
deriving DecidableEq

/-- The Azure-side search options object assembled by the adapter. -/
structure AzureQueryOptions where
  count : Bool
  queryType : Option String
  searchMode : Option String
  searchText : Option String
  searchFields : List String
  select : List String
  top : Option Nat
  skip : Option Nat
  filter : Option String
  vectorQueries : List VectorQueryModel
deriving DecidableEq

/-- The empty options object (`let searchOptions: any = \x7b\x7d`). -/
def emptyQueryOptions : AzureQueryOptions :=
  { count := false, queryType := none, searchMode := none, searchText := none,
    searchFields := [], select := [], top := none, skip := none, filter := none,
    vectorQueries := [] }

/-- The select list shared by the vector and text branches of `search`. -/
def selectFields : List String :=
  ["id", "content", "relativePath", "startLine", "endLine", "fileExtension", "metadata"]

/-- `const topK = options?.topK || 10`: absent options, absent `topK`, and
a `topK` of `0` (falsy in JavaScript) all yield the default `10`. -/
def effectiveTopK (options : Option SearchOptions) : Nat :=
  match options with
  | none => 10
  | some o =>
    match o.topK with
    | none => 10
    | some k => if k = 0 then 10 else k

/-- The Azure search options `search` builds: the vector branch sets a
vector query and `top`; the text branch sets simple full-text options and
`top`; any other mode (the unimplemented hybrid branch) leaves the empty
object; finally a non-blank `filterExpr` is copied into `filter`. -/
def buildSearchOptions (options : Option SearchOptions) (queryVector : List ℚ) :
    AzureQueryOptions :=
  let topK := effectiveTopK options
  let base :=
    if (options.bind (fun o => o.type)) = some "vector" then
      { emptyQueryOptions with
          count := true
          vectorQueries := [⟨"vector", queryVector, topK, "contentVector"⟩]
          select := selectFields
          top := some topK }
    else if (options.bind (fun o => o.type)) = some "text" then
      { emptyQueryOptions with
          count := true
          queryType := some "simple"
          searchMode := some "all"
          searchText := some ((options.bind (fun o => o.queryText)).getD "")
          searchFields := ["content"]
          select := selectFields
          top := some topK }
    else emptyQueryOptions
  match options.bind (fun o => o.filterExpr) with
  | some f => if f.data.any (fun c => !c.isWhitespace) then { base with filter := some f } else base
  | none => base

/-- A full request to the Azure backend: target index, the text passed as
the first argument of `searchClient.search`, and the options object. -/
structure SearchRequest where
  indexName : String
  searchText : String
  opts : AzureQueryOptions
deriving DecidableEq

/-- One search hit as returned to callers of `search`. -/
structure VectorSearchResult (J : Type) where
  document : VectorDocument J
  score : ℚ

/-- The per-hit transformation of `search`: the caller gets the query
vector back (the stored vector is not returned), missing string fields
default to the empty string, missing line numbers to `0`, and the
metadata string is parsed as JSON with the empty object as fallback for a
missing, empty, or unparseable payload. -/
def transformResult {J : Type} (jempty : J) (parseJson : String → Option J)
    (queryVector : List ℚ) (r : RawDoc × Option ℚ) : VectorSearchResult J :=
  let raw := r.1
  let metadataStr :=
    match raw.metadata with
    | some s => if s = "" then "\x7b\x7d" else s
    | none => "\x7b\x7d"
  let metadata := (parseJson metadataStr).getD jempty
  { document :=
      { id := raw.id.getD ""
        vector := queryVector
        content := raw.content.getD ""
        relativePath := raw.relativePath.getD ""
        startLine := raw.startLine.getD 0
        endLine := raw.endLine.getD 0
        fileExtension := raw.fileExtension.getD ""
        metadata := metadata }
    score := r.2.getD 0 }

/-- Shallow embedding of `AzureAISearchVectorDatabase.search`.  The
backend (`searchClient.search` plus result iteration) is a parameter from
requests to scored raw documents; `parseJson` models `JSON.parse` with
`jempty` the empty object produced on parse failure. -/
def search {J : Type} (backend : SearchRequest → List (RawDoc × Option ℚ))
    (jempty : J) (parseJson : String → Option J)
    (collectionName : String) (queryVector : List ℚ) (options : Option SearchOptions) :
    List (VectorSearchResult J) :=
  (backend
      ⟨jsLower collectionName,
        (options.bind (fun o => o.queryText)).getD "",
        buildSearchOptions options queryVector⟩).map
    (transformResult jempty parseJson queryVector)

/-- Shallow embedding of `hybridSearch`: it unconditionally throws. -/
def hybridSearch {A B R : Type} (collectionName : String)
    (searchRequests : List A) (options : Option B) : Except String (List R) :=
  .error "Hybrid search is not supported for Azure AI Search"

/-- Shallow embedding of `query`: a filtered scan sent to the lowercased
index with the given select list and `limit || 16384` as `top`. -/
def query (backend : SearchRequest → List (RawDoc × Option ℚ))
    (collectionName : String) (filter : String) (outputFields : List String)
    (limit : Option Nat) : List RawDoc :=
  let top := match limit with
    | none => 16384
    | some l => if l = 0 then 16384 else l
  (backend
      ⟨jsLower collectionName, "",
        { emptyQueryOptions with filter := some filter, select := outputFields, top := some top }⟩).map
    (fun r => r.1)

/-! ### listFilePaths -/

/-- The truthiness filter of `listFilePaths`
(`if (result.relativePath)`): present and non-empty. -/
def truthyPath (d : RawDoc) : Option String :=
  match d.relativePath with
  | some s => if s = "" then none else some s
  | none => none

/-- The paging backend assumed by the claim: a request with `top` and
`skip` returns at most `batchSize` documents at offset `skip`, and the
page is empty exactly when the data is exhausted. -/
def pageAt (docs : List RawDoc) (batchSize skip : Nat) : List RawDoc :=
  (docs.drop skip).take batchSize

/-- The pagination loop of `listFilePaths`: request a page at `skip`,
stop on an empty page, accumulate the truthy `relativePath` values, stop
after a short page, else advance `skip` by `batchSize`. -/
def listFilePathsLoop (docs : List RawDoc) (batchSize : Nat) (skip : Nat)
    (filePaths : Finset String) : Finset String :=
  if _h : pageAt docs batchSize skip = [] then filePaths
  else if _h2 : (pageAt docs batchSize skip).length < batchSize then
    filePaths ∪ ((pageAt docs batchSize skip).filterMap truthyPath).toFinset
  else
    listFilePathsLoop docs batchSize (skip + batchSize)
      (filePaths ∪ ((pageAt docs batchSize skip).filterMap truthyPath).toFinset)
termination_by docs.length - skip
decreasing_by
  simp only [pageAt, List.take_eq_nil_iff, not_or] at _h
  have h3 : ¬ (docs.drop skip).length ≤ skip ∨ True := Or.inr trivial
  have h4 : ¬ docs.length ≤ skip := by
    intro hle
    exact _h.2 (List.drop_eq_nil_iff.mpr hle)
  omega

/-- Shallow embedding of `AzureAISearchVectorDatabase.listFilePaths` over
a store of collections with the paging backend above. -/
def listFilePaths (collections : String → List RawDoc) (collectionName : String)
    (batchSize : Nat) : Finset String :=
  listFilePathsLoop (collections (jsLower collectionName)) batchSize 0 ∅

/-! ### Alias-swap reindexing script

The script `indexCodePathForRepo` and its helper
`switchAzureAISearchAlias` are modelled as trace-producing functions: the
external calls they make are recorded as events, in order, and each
external outcome is supplied by an oracle record. -/

/-- The externally visible events of the reindexing script. -/
inductive Ev where
  | hasIndex
  | clearIndex
  | indexCodebase
  | generateSnapshot
  | getAlias (aliasName : String)
  | putAlias (aliasName indexName : String)
  | sleepMs (ms : Nat)
  | deleteIndex (indexName : String)
deriving DecidableEq

/-- Outcomes of the external calls made by `switchAzureAISearchAlias`:
the alias GET (returning the `indexes` array), the alias PUT (returning
the HTTP status), and the old-index deletion. -/
structure SwitchOracle where
  getAliasResult : Except String (List String)
  putAliasResult : Except String Nat
  deleteIndexResult : Except String Unit

/-- Shallow embedding of `switchAzureAISearchAlias`: GET the alias to
learn the old index, PUT the alias at the new index, and only when the
PUT status is strictly between 200 and 300 sleep ten seconds and delete
the old index; a non-success status only logs and returns.  The returned
pair is the event trace and the thrown-or-returned outcome. -/
def switchAzureAISearchAlias (o : SwitchOracle) (aliasName newIndexName : String) :
    List Ev × Except String Unit :=
  match o.getAliasResult with
  | .error e => ([.getAlias aliasName], .error e)
  | .ok indexes =>
    let oldIndexName := if indexes.length > 0 then indexes.headD "" else ""
    match o.putAliasResult with
    | .error e => ([.getAlias aliasName, .putAlias aliasName newIndexName], .error e)
    | .ok status =>
      if 200 < status ∧ status < 300 then
        ([.getAlias aliasName, .putAlias aliasName newIndexName,
            .sleepMs 10000, .deleteIndex oldIndexName],
          o.deleteIndexResult)
      else
        ([.getAlias aliasName, .putAlias aliasName newIndexName], .ok ())

/-- Outcomes of the external calls made by `indexCodePathForRepo` ahead
of the alias switch: `context.hasIndex`, `context.clearIndex`,
`context.indexCodebase`, and `generateSnapshot` (the
`FileSynchronizer.initialize` run). -/
structure RepoOracle where
  hasIndexResult : Except String Bool
  clearIndexResult : Except String Unit
  indexCodebaseResult : Except String Unit
  generateSnapshotResult : Except String Unit
  switchOracle : SwitchOracle

/-- Shallow embedding of the alias-swap run `indexCodePathForRepo`
(collection and alias naming from the timestamp and git repository name
is abstracted into the two name parameters): check and clear any
existing index, run the full indexing, generate the snapshot, and only
then switch the alias.  A thrown error at any step stops the run and
propagates. -/
def indexCodePathForRepo (o : RepoOracle) (aliasName collectionName : String) :
    List Ev × Except String Unit :=
  match o.hasIndexResult with
  | .error e => ([.hasIndex], .error e)
  | .ok hasExistingIndex =>
    match (if hasExistingIndex then o.clearIndexResult else .ok ()) with
    | .error e => ([.hasIndex, .clearIndex], .error e)
    | .ok _ =>
      let pre : List Ev := if hasExistingIndex then [.hasIndex, .clearIndex] else [.hasIndex]
      match o.indexCodebaseResult with
      | .error e => (pre ++ [.indexCodebase], .error e)
      | .ok _ =>
        match o.generateSnapshotResult with
        | .error e => (pre ++ [.indexCodebase, .generateSnapshot], .error e)
        | .ok _ =>
          let res := switchAzureAISearchAlias o.switchOracle aliasName collectionName
          (pre ++ [.indexCodebase, .generateSnapshot] ++ res.1, res.2)

/-- The alias target after a trace of events: each `putAlias` repoints
the alias, every other event leaves it alone. -/
def aliasTarget (init : String) (tr : List Ev) : String :=
  tr.foldl (fun s e => match e with | .putAlias _ ix => ix | _ => s) init

/-! ### Progress throttling -/

/-- One progress report (`\x7bphase, percentage\x7d`). -/
structure IndexProgress where
  phase : String
  percentage : Nat
deriving DecidableEq

/-- The throttling interval of the progress handler in
`indexCodePathForRepo` (`1 * 60 * 1000` milliseconds). -/
def LOG_INTERVAL : Nat := 1 * 60 * 1000

/-- The throttled progress handler of `indexCodePathForRepo`, run over
the sequence of callback invocations `(now, progress)`: a report is
logged when `now - lastLogTime` has reached `LOG_INTERVAL`, and logging
updates `lastLogTime` to `now`.  The function returns the times at which
a log line was emitted. -/
def progressLogTimes (lastLogTime : Nat) : List (Nat × IndexProgress) → List Nat
  | [] => []
  | (now, _p) :: rest =>
    if LOG_INTERVAL ≤ now - lastLogTime then now :: progressLogTimes now rest
    else progressLogTimes lastLogTime rest

/-- The reports the caller-supplied callback receives: it is invoked once
per report, unconditionally (the throttle only gates the log line). -/
def callbackInvocations (events : List (Nat × IndexProgress)) : List IndexProgress :=
  events.map (fun e => e.2)

/-- Modelled from the spec: `Context.indexCodebase` is not among the
sources under `src/`; per the spec it invokes the caller-supplied
progress callback with `\x7bphase, percentage\x7d` reports and guarantees
at least one terminal call at 100 percent, the final report of the run.
A run is represented by the list of timed callback invocations it
performs, and this predicate records the terminal-report guarantee. -/
def TerminalRun (events : List (Nat × IndexProgress)) : Prop :=
  ∃ e, events.getLast? = some e ∧ e.2.percentage = 100

/-! ### Concrete demonstration data

A two-document collection and a backend serving it that honours the
`top` bound whenever one is sent and otherwise serves the Azure default
page of 50 documents; used to instantiate the search claims. -/

def demoDocA : RawDoc :=
  ⟨some "a", some "ca", some "pa", some 1, some 2, some ".ts", none⟩

def demoDocB : RawDoc :=
  ⟨some "b", some "cb", some "pb", some 3, some 4, some ".ts", none⟩

def demoBackend (req : SearchRequest) : List (RawDoc × Option ℚ) :=
  List.take (req.opts.top.getD 50) [(demoDocA, none), (demoDocB, none)]

def hybridDemoOptions : SearchOptions :=
  { topK := some 1, type := some "hybrid", filterExpr := none, queryText := none }

def vectorDemoOptions : SearchOptions :=
  { topK := some 1, type := some "vector", filterExpr := none, queryText := none }

/-! ## Helper lemmas -/

theorem toNat_ofNat_of_valid (n : Nat) (h : n.isValidChar) : (Char.ofNat n).toNat = n := by
  rw [Char.ofNat, dif_pos h]
  rfl

theorem toLower_idem (c : Char) : c.toLower.toLower = c.toLower := by
  unfold Char.toLower
  by_cases h : c.toNat ≥ 65 ∧ c.toNat ≤ 90
  · rw [if_pos h]
    have hv : (Char.ofNat (c.toNat + 32)).toNat = c.toNat + 32 := by
      apply toNat_ofNat_of_valid
      left
      omega
    rw [if_neg]
    omega
  · rw [if_neg h, if_neg h]

theorem jsLower_idem (s : String) : jsLower (jsLower s) = jsLower s := by
  unfold jsLower
  have h : Char.toLower ∘ Char.toLower = Char.toLower := funext toLower_idem
  simp [List.map_map, h]

/-! ## Claim theorems -/

/-- C8: every operation of `AzureAISearchVectorDatabase` lowercases the
collection name before contacting the backend; since lowercasing is
idempotent, each operation applied to a name behaves identically to the
same operation applied to the lowercase of that name, so two names with
the same lowercasing denote the same collection. -/
theorem C8_lowercase_collection_names (collectionName : String) :
    jsLower (jsLower collectionName) = jsLower collectionName
    ∧ (∀ ci dim, createCollection ci collectionName dim
        = createCollection ci (jsLower collectionName) dim)
    ∧ (∀ di, dropCollection di collectionName = dropCollection di (jsLower collectionName))
    ∧ (∀ gi, hasCollection gi collectionName = hasCollection gi (jsLower collectionName))
    ∧ (∀ (M : Type) (store : String → List AzureRecord) (stringify : M → String) docs,
        insert store stringify collectionName docs
          = insert store stringify (jsLower collectionName) docs)
    ∧ (∀ up ids, delete up collectionName ids = delete up (jsLower collectionName) ids)
    ∧ (∀ (J : Type) (backend : SearchRequest → List (RawDoc × Option ℚ))
        (jempty : J) (parseJson : String → Option J) qv opts,
        search backend jempty parseJson collectionName qv opts
          = search backend jempty parseJson (jsLower collectionName) qv opts)
    ∧ (∀ backend f outputFields lim, query backend collectionName f outputFields lim
        = query backend (jsLower collectionName) f outputFields lim)
    ∧ (∀ colls b, listFilePaths colls collectionName b
        = listFilePaths colls (jsLower collectionName) b) := by
  refine ⟨jsLower_idem _, ?_, ?_, ?_, ?_, ?_, ?_, ?_, ?_⟩
  · intro ci dim
    simp only [createCollection, jsLower_idem]
  · intro di
    simp only [dropCollection, jsLower_idem]
  · intro gi
    simp only [hasCollection, jsLower_idem]
  · intro M store stringify docs
    funext k
    simp only [insert, jsLower_idem]
  · intro up ids
    simp only [delete, jsLower_idem]
  · intro J backend jempty parseJson qv opts
    simp only [search, jsLower_idem]
  · intro backend f outputFields lim
    simp only [query, jsLower_idem]
  · intro colls b
    simp only [listFilePaths, jsLower_idem]

/-- C2: on a backend creation failure, `createCollection` raises the
distinct collection-limit condition exactly when the error message
matches the limit, quota, or exceeded pattern (case-insensitively), and
propagates the original error otherwise. -/
theorem C2_createCollection_limit_classification
    (createOrUpdateIndex : IndexSchema → Except String Unit)
    (collectionName : String) (dimension : Nat) (msg : String)
    (h : createOrUpdateIndex ⟨jsLower collectionName, dimension⟩ = .error msg) :
    (createCollection createOrUpdateIndex collectionName dimension
        = .error .collectionLimit ↔ limitTest msg = true)
    ∧ (limitTest msg = false →
        createCollection createOrUpdateIndex collectionName dimension
          = .error (.generic msg)) := by
  unfold createCollection
  rw [h]
  by_cases ht : limitTest msg = true
  · simp [ht]
  · simp only [Bool.not_eq_true] at ht
    simp [ht]

/-- C2 witness: a quota-mentioning backend error is raised as the
collection-limit condition at a concrete input. -/
theorem C2_witness :
    (createCollection (fun _ => Except.error "Quota exceeded for indexes") "MyRepo" 3
        = .error .collectionLimit ↔ limitTest "Quota exceeded for indexes" = true)
    ∧ (limitTest "Quota exceeded for indexes" = false →
        createCollection (fun _ => Except.error "Quota exceeded for indexes") "MyRepo" 3
          = .error (.generic "Quota exceeded for indexes")) :=
  C2_createCollection_limit_classification
    (fun _ => Except.error "Quota exceeded for indexes") "MyRepo" 3
    "Quota exceeded for indexes" rfl

/-- C9 counterexample: the claim as stated says construction succeeds for
every non-empty endpoint, but a non-empty endpoint together with an empty
apiKey makes the constructor throw. -/
theorem C9_counterexample :
    ¬ (∀ cfg : AzureAISearchConfig, cfg.endpoint ≠ "" →
        (mkAzureAISearchVectorDatabase cfg).isOk = true) := by
  intro hall
  have h := hall ⟨"codeagentsearch01.search.windows.net", "", none⟩ (by decide)
  exact absurd h (by decide)

/-- C9 amended: construction throws exactly when the endpoint or the
apiKey is empty; for a non-empty endpoint and a non-empty apiKey it
succeeds, and both the index client and every search client use the
input endpoint with a trailing slash removed and an `https://` prefix
added when absent. -/
theorem C9_constructor_validation (cfg : AzureAISearchConfig) :
    ((cfg.endpoint = "" ∨ cfg.apiKey = "") →
      mkAzureAISearchVectorDatabase cfg
        = .error "Azure AI Search endpoint and apiKey are required")
    ∧ (cfg.endpoint ≠ "" → cfg.apiKey ≠ "" →
        mkAzureAISearchVectorDatabase cfg
          = .ok { config := { cfg with apiVersion := some (cfg.apiVersion.getD "2024-07-01") },
                  indexClientEndpoint := normalizeEndpoint cfg.endpoint }
        ∧ ∀ db : AzureAISearchVectorDatabase,
            mkAzureAISearchVectorDatabase cfg = .ok db →
            ∀ indexName,
              db.indexClientEndpoint = normalizeEndpoint cfg.endpoint
              ∧ getSearchClient db indexName = (normalizeEndpoint cfg.endpoint, indexName)) := by
  constructor
  · intro hempty
    unfold mkAzureAISearchVectorDatabase
    simp only [if_pos hempty]
  · intro he hk
    have hcond : ¬ (cfg.endpoint = "" ∨ cfg.apiKey = "") := by
      intro hc
      rcases hc with hc | hc
      · exact he hc
      · exact hk hc
    constructor
    · unfold mkAzureAISearchVectorDatabase
      simp only [if_neg hcond]
    · intro db hdb indexName
      unfold mkAzureAISearchVectorDatabase at hdb
      simp only [if_neg hcond, Except.ok.injEq] at hdb
      constructor
      · rw [← hdb]
      · rw [← hdb]
        rfl

/-- C9 amended witness: a concrete config with a trailing slash and no
scheme is normalized as described. -/
theorem C9_witness :
    (mkAzureAISearchVectorDatabase ⟨"foo.example.net/", "key", none⟩
      = .ok { config := { endpoint := "foo.example.net/", apiKey := "key",
                          apiVersion := some ((none : Option String).getD "2024-07-01") },
              indexClientEndpoint := normalizeEndpoint "foo.example.net/" })
    ∧ normalizeEndpoint "foo.example.net/" = "https://foo.example.net" :=
  ⟨((C9_constructor_validation ⟨"foo.example.net/", "key", none⟩).2
      (by decide) (by decide)).1, by decide⟩

theorem repl_id (r x : AzureRecord) :
    (if x.id == r.id then r else x).id = x.id := by
  by_cases hx : x.id = r.id
  · simp [hx]
  · simp [hx]

theorem ids_upsertOne (st : List AzureRecord) (r : AzureRecord) :
    (upsertOne st r).map (fun x => x.id)
      = if st.any (fun x => x.id == r.id) then st.map (fun x => x.id)
        else st.map (fun x => x.id) ++ [r.id] := by
  unfold upsertOne
  split
  · rw [List.map_map]
    apply List.map_congr_left
    intro x _
    exact repl_id r x
  · simp

theorem ids_nodup_upsertOne (st : List AzureRecord) (r : AzureRecord)
    (h : (st.map (fun x => x.id)).Nodup) :
    ((upsertOne st r).map (fun x => x.id)).Nodup := by
  rw [ids_upsertOne]
  split
  · exact h
  · next hany =>
    have hr : r.id ∉ st.map (fun x => x.id) := by
      intro hmem
      obtain ⟨x, hx, hxe⟩ := List.mem_map.mp hmem
      apply hany
      exact List.any_eq_true.mpr ⟨x, hx, by simp [hxe]⟩
    simp [List.nodup_append, h, hr]

theorem find?_map_repl_self (st : List AzureRecord) (r : AzureRecord)
    (h : st.any (fun x => x.id == r.id) = true) :
    (st.map (fun x => if x.id == r.id then r else x)).find? (fun x => x.id == r.id)
      = some r := by
  induction st with
  | nil => simp at h
  | cons x t ih =>
    rw [List.map_cons]
    by_cases hx : x.id = r.id
    · have hfx : (if x.id == r.id then r else x) = r := if_pos (by simp [hx])
      have h1 : (r.id == r.id) = true := by simp
      rw [hfx, List.find?_cons, h1]
    · have hfx : (if x.id == r.id then r else x) = x := if_neg (by simp [hx])
      have h1 : (x.id == r.id) = false := by simp [hx]
      rw [hfx, List.find?_cons, h1]
      apply ih
      simp only [List.any_cons, Bool.or_eq_true] at h
      rcases h with h | h
      · exact absurd (by simpa using h) hx
      · exact h

theorem find?_map_repl_other (st : List AzureRecord) (r : AzureRecord) (i : String)
    (h : i ≠ r.id) :
    (st.map (fun x => if x.id == r.id then r else x)).find? (fun x => x.id == i)
      = st.find? (fun x => x.id == i) := by
  induction st with
  | nil => simp
  | cons x t ih =>
    rw [List.map_cons]
    by_cases hx : x.id = r.id
    · have hfx : (if x.id == r.id then r else x) = r := if_pos (by simp [hx])
      have h1 : (r.id == i) = false := by
        simp only [beq_eq_false_iff_ne, ne_eq]
        exact Ne.symm h
      have h2 : (x.id == i) = false := by
        simp only [beq_eq_false_iff_ne, ne_eq, hx]
        exact Ne.symm h
      rw [hfx, List.find?_cons, h1, List.find?_cons, h2]
      exact ih
    · have hfx : (if x.id == r.id then r else x) = x := if_neg (by simp [hx])
      rw [hfx]
      by_cases hxi : x.id = i
      · have h1 : (x.id == i) = true := by simp [hxi]
        rw [List.find?_cons, h1, List.find?_cons, h1]
      · have h1 : (x.id == i) = false := by simp [hxi]
        rw [List.find?_cons, h1, List.find?_cons, h1]
        exact ih

theorem findById_upsertOne_self (st : List AzureRecord) (r : AzureRecord) :
    findById (upsertOne st r) r.id = some r := by
  unfold findById upsertOne
  split
  · next hany => exact find?_map_repl_self st r hany
  · next hany =>
    have hnone : st.find? (fun x => x.id == r.id) = none := by
      rw [List.find?_eq_none]
      intro x hx hpx
      exact hany (List.any_eq_true.mpr ⟨x, hx, hpx⟩)
    have h1 : (r.id == r.id) = true := by simp
    rw [List.find?_append, hnone, Option.none_or, List.find?_cons, h1]

theorem findById_upsertOne_other (st : List AzureRecord) (r : AzureRecord) (i : String)
    (h : i ≠ r.id) : findById (upsertOne st r) i = findById st i := by
  unfold findById upsertOne
  split
  · exact find?_map_repl_other st r i h
  · have h1 : (r.id == i) = false := by
      simp only [beq_eq_false_iff_ne, ne_eq]
      exact Ne.symm h
    have hnone : List.find? (fun x => x.id == i) [r] = none := by
      rw [List.find?_cons, h1]
      rfl
    rw [List.find?_append, hnone, Option.or_none]

theorem findById_upload_not_mem (st : List AzureRecord) (rs : List AzureRecord)
    (i : String) (h : i ∉ rs.map (fun x => x.id)) :
    findById (uploadDocuments st rs) i = findById st i := by
  induction rs generalizing st with
  | nil => rfl
  | cons a t ih =>
    simp only [List.map_cons, List.mem_cons, not_or] at h
    show findById (uploadDocuments (upsertOne st a) t) i = findById st i
    rw [ih (upsertOne st a) (by simpa using h.2)]
    exact findById_upsertOne_other st a i h.1

theorem findById_upload_mem (st : List AzureRecord) (rs : List AzureRecord)
    (hnd : (rs.map (fun x => x.id)).Nodup) (r : AzureRecord) (hr : r ∈ rs) :
    findById (uploadDocuments st rs) r.id = some r := by
  induction rs generalizing st with
  | nil => cases hr
  | cons a t ih =>
    simp only [List.map_cons, List.nodup_cons] at hnd
    rcases List.mem_cons.mp hr with hra | hrt
    · subst hra
      show findById (uploadDocuments (upsertOne st r) t) r.id = some r
      rw [findById_upload_not_mem _ _ _ (by simpa using hnd.1)]
      exact findById_upsertOne_self st r
    · exact ih (upsertOne st a) hnd.2 hrt

theorem ids_nodup_upload (st : List AzureRecord) (rs : List AzureRecord)
    (h : (st.map (fun x => x.id)).Nodup) :
    ((uploadDocuments st rs).map (fun x => x.id)).Nodup := by
  induction rs generalizing st with
  | nil => exact h
  | cons a t ih => exact ih (upsertOne st a) (ids_nodup_upsertOne st a h)

/-- C4: `insert` has upsert semantics keyed by document id.  Under a
store whose record ids are distinct and a batch of documents with
distinct ids, every document ends up stored under its id with exactly the
field mapping of the source (`content`, the vector under `contentVector`,
`relativePath`, `startLine`, `endLine`, `fileExtension`, and the metadata
serialized by `JSON.stringify`); the store keeps distinct ids, so a
document whose id already exists replaces the stored record instead of
creating a duplicate; and no other collection is touched. -/
theorem C4_insert_upsert {M : Type} (store : String → List AzureRecord)
    (stringify : M → String) (collectionName : String)
    (documents : List (VectorDocument M))
    (hstore : ((store (jsLower collectionName)).map (fun x => x.id)).Nodup)
    (hdocs : (documents.map (fun d => d.id)).Nodup) :
    (∀ d ∈ documents,
        findById (insert store stringify collectionName documents (jsLower collectionName)) d.id
          = some { id := d.id, content := d.content, contentVector := d.vector,
                   relativePath := d.relativePath, startLine := d.startLine,
                   endLine := d.endLine, fileExtension := d.fileExtension,
                   metadata := stringify d.metadata })
    ∧ ((insert store stringify collectionName documents (jsLower collectionName)).map
          (fun x => x.id)).Nodup
    ∧ (∀ k, k ≠ jsLower collectionName →
        insert store stringify collectionName documents k = store k) := by
  have hids : ((documents.map (toAzureDoc stringify)).map (fun x => x.id)).Nodup := by
    rw [List.map_map]
    simpa [Function.comp, toAzureDoc] using hdocs
  refine ⟨?_, ?_, ?_⟩
  · intro d hd
    unfold insert
    rw [if_pos rfl]
    have hmem : toAzureDoc stringify d ∈ documents.map (toAzureDoc stringify) :=
      List.mem_map_of_mem _ hd
    have := findById_upload_mem (store (jsLower collectionName)) _ hids
      (toAzureDoc stringify d) hmem
    simpa [toAzureDoc] using this
  · unfold insert
    rw [if_pos rfl]
    exact ids_nodup_upload _ _ hstore
  · intro k hk
    unfold insert
    rw [if_neg hk]

/-- C4 witness: inserting two documents, one of which reuses an existing
id, replaces the old record and appends the new one. -/
theorem C4_witness :
    (∀ d ∈ [({ id := "p1", vector := [1], content := "new", relativePath := "a.ts",
               startLine := 1, endLine := 2, fileExtension := ".ts",
               metadata := () } : VectorDocument Unit),
            { id := "p2", vector := [2], content := "snd", relativePath := "b.ts",
              startLine := 3, endLine := 4, fileExtension := ".ts", metadata := () }],
        findById (insert
            (fun _ => [{ id := "p1", content := "old", contentVector := [0],
                         relativePath := "a.ts", startLine := 1, endLine := 2,
                         fileExtension := ".ts", metadata := "\x7b\x7d" }])
            (fun _ => "\x7b\x7d") "Repo"
            [{ id := "p1", vector := [1], content := "new", relativePath := "a.ts",
               startLine := 1, endLine := 2, fileExtension := ".ts", metadata := () },
             { id := "p2", vector := [2], content := "snd", relativePath := "b.ts",
               startLine := 3, endLine := 4, fileExtension := ".ts", metadata := () }]
            (jsLower "Repo")) d.id
          = some { id := d.id, content := d.content, contentVector := d.vector,
                   relativePath := d.relativePath, startLine := d.startLine,
                   endLine := d.endLine, fileExtension := d.fileExtension,
                   metadata := "\x7b\x7d" })
    ∧ ((insert
          (fun _ => [{ id := "p1", content := "old", contentVector := [0],
                       relativePath := "a.ts", startLine := 1, endLine := 2,
                       fileExtension := ".ts", metadata := "\x7b\x7d" }])
          (fun _ => "\x7b\x7d") "Repo"
          [{ id := "p1", vector := [1], content := "new", relativePath := "a.ts",
             startLine := 1, endLine := 2, fileExtension := ".ts", metadata := () },
           { id := "p2", vector := [2], content := "snd", relativePath := "b.ts",
             startLine := 3, endLine := 4, fileExtension := ".ts", metadata := () }]
          (jsLower "Repo")).map (fun x => x.id)).Nodup
    ∧ (∀ k, k ≠ jsLower "Repo" →
        insert
          (fun _ => [{ id := "p1", content := "old", contentVector := [0],
                       relativePath := "a.ts", startLine := 1, endLine := 2,
                       fileExtension := ".ts", metadata := "\x7b\x7d" }])
          (fun _ => "\x7b\x7d") "Repo"
          [{ id := "p1", vector := [1], content := "new", relativePath := "a.ts",
             startLine := 1, endLine := 2, fileExtension := ".ts", metadata := () },
           { id := "p2", vector := [2], content := "snd", relativePath := "b.ts",
             startLine := 3, endLine := 4, fileExtension := ".ts", metadata := () }]
          k
          = [{ id := "p1", content := "old", contentVector := [0],
               relativePath := "a.ts", startLine := 1, endLine := 2,
               fileExtension := ".ts", metadata := "\x7b\x7d" }]) :=
  C4_insert_upsert
    (fun _ => [{ id := "p1", content := "old", contentVector := [0],
                 relativePath := "a.ts", startLine := 1, endLine := 2,
                 fileExtension := ".ts", metadata := "\x7b\x7d" }])
    (fun _ => "\x7b\x7d") "Repo"
    [{ id := "p1", vector := [1], content := "new", relativePath := "a.ts",
       startLine := 1, endLine := 2, fileExtension := ".ts", metadata := () },
     { id := "p2", vector := [2], content := "snd", relativePath := "b.ts",
       startLine := 3, endLine := 4, fileExtension := ".ts", metadata := () }]
    (by decide) (by decide)

/-- C10: every result of `search` carries the query vector supplied by
the caller in its `vector` field (the stored vector is never returned),
and a malformed stored document never fails the search: missing `id`,
`content`, `relativePath`, `fileExtension` default to the empty string,
missing `startLine` and `endLine` default to `0`, and a metadata payload
that is missing or fails to parse as JSON yields the empty object
(`parseJson` models `JSON.parse`, with the empty-object string parsing to
the empty object `jempty`). -/
theorem C10_search_result_defaults {J : Type} (jempty : J)
    (parseJson : String → Option J)
    (hparse : parseJson "\x7b\x7d" = some jempty)
    (backend : SearchRequest → List (RawDoc × Option ℚ))
    (collectionName : String) (queryVector : List ℚ) (options : Option SearchOptions) :
    (∀ r ∈ search backend jempty parseJson collectionName queryVector options,
        r.document.vector = queryVector)
    ∧ (∀ (raw : RawDoc) (sc : Option ℚ),
        (raw.id = none →
          (transformResult jempty parseJson queryVector (raw, sc)).document.id = "")
        ∧ (raw.content = none →
            (transformResult jempty parseJson queryVector (raw, sc)).document.content = "")
        ∧ (raw.relativePath = none →
            (transformResult jempty parseJson queryVector (raw, sc)).document.relativePath = "")
        ∧ (raw.fileExtension = none →
            (transformResult jempty parseJson queryVector (raw, sc)).document.fileExtension = "")
        ∧ (raw.startLine = none →
            (transformResult jempty parseJson queryVector (raw, sc)).document.startLine = 0)
        ∧ (raw.endLine = none →
            (transformResult jempty parseJson queryVector (raw, sc)).document.endLine = 0)
        ∧ (raw.metadata = none →
            (transformResult jempty parseJson queryVector (raw, sc)).document.metadata = jempty)
        ∧ (∀ s, raw.metadata = some s → parseJson s = none →
            (transformResult jempty parseJson queryVector (raw, sc)).document.metadata
              = jempty)) := by
  constructor
  · intro r hr
    unfold search at hr
    obtain ⟨x, _, hx⟩ := List.mem_map.mp hr
    rw [← hx]
    rfl
  · intro raw sc
    refine ⟨?_, ?_, ?_, ?_, ?_, ?_, ?_, ?_⟩
    · intro h
      simp [transformResult, h]
    · intro h
      simp [transformResult, h]
    · intro h
      simp [transformResult, h]
    · intro h
      simp [transformResult, h]
    · intro h
      simp [transformResult, h]
    · intro h
      simp [transformResult, h]
    · intro h
      simp [transformResult, h, hparse]
    · intro s hs hp
      by_cases hse : s = ""
      · simp [transformResult, hs, hse, hparse]
      · simp [transformResult, hs, hse, hp]

/-- C10 witness: a stored document with every field missing is returned
with the documented defaults and the caller-supplied query vector. -/
theorem C10_witness :
    (∀ r ∈ search (fun _ => [(⟨none, none, none, none, none, none, none⟩, none)])
        true (fun s => if s = "\x7b\x7d" then some true else none) "C" [1, 2] none,
        r.document.vector = [1, 2])
    ∧ (∀ (raw : RawDoc) (sc : Option ℚ),
        (raw.id = none →
          (transformResult true (fun s => if s = "\x7b\x7d" then some true else none)
            [1, 2] (raw, sc)).document.id = "")
        ∧ (raw.content = none →
            (transformResult true (fun s => if s = "\x7b\x7d" then some true else none)
              [1, 2] (raw, sc)).document.content = "")
        ∧ (raw.relativePath = none →
            (transformResult true (fun s => if s = "\x7b\x7d" then some true else none)
              [1, 2] (raw, sc)).document.relativePath = "")
        ∧ (raw.fileExtension = none →
            (transformResult true (fun s => if s = "\x7b\x7d" then some true else none)
              [1, 2] (raw, sc)).document.fileExtension = "")
        ∧ (raw.startLine = none →
            (transformResult true (fun s => if s = "\x7b\x7d" then some true else none)
              [1, 2] (raw, sc)).document.startLine = 0)
        ∧ (raw.endLine = none →
            (transformResult true (fun s => if s = "\x7b\x7d" then some true else none)
              [1, 2] (raw, sc)).document.endLine = 0)
        ∧ (raw.metadata = none →
            (transformResult true (fun s => if s = "\x7b\x7d" then some true else none)
              [1, 2] (raw, sc)).document.metadata = true)
        ∧ (∀ s, raw.metadata = some s →
            (if s = "\x7b\x7d" then some true else none) = none →
            (transformResult true (fun s => if s = "\x7b\x7d" then some true else none)
              [1, 2] (raw, sc)).document.metadata = true)) :=
  C10_search_result_defaults true (fun s => if s = "\x7b\x7d" then some true else none)
    (by decide) (fun _ => [(⟨none, none, none, none, none, none, none⟩, none)])
    "C" [1, 2] none

theorem buildSearchOptions_top_of_mode (options : Option SearchOptions)
    (queryVector : List ℚ)
    (h : options.bind (fun o => o.type) = some "vector"
      ∨ options.bind (fun o => o.type) = some "text") :
    (buildSearchOptions options queryVector).top = some (effectiveTopK options) := by
  rcases h with h | h <;>
  · cases hf : options.bind (fun o => o.filterExpr) with
    | none => simp [buildSearchOptions, h, hf]
    | some f =>
      by_cases hw : f.data.any (fun c => !c.isWhitespace) <;>
        simp [buildSearchOptions, h, hf, hw]

theorem buildSearchOptions_hybrid (options : Option SearchOptions)
    (queryVector : List ℚ)
    (h : ¬ (options.bind (fun o => o.type) = some "vector"
      ∨ options.bind (fun o => o.type) = some "text")) :
    (buildSearchOptions options queryVector).top = none
    ∧ (buildSearchOptions options queryVector).vectorQueries = []
    ∧ (buildSearchOptions options queryVector).queryType = none := by
  rw [not_or] at h
  cases hf : options.bind (fun o => o.filterExpr) with
  | none => simp [buildSearchOptions, h.1, h.2, hf, emptyQueryOptions]
  | some f =>
    by_cases hw : f.data.any (fun c => !c.isWhitespace) <;>
      simp [buildSearchOptions, h.1, h.2, hf, hw, emptyQueryOptions]

/-- C3 counterexample: the claim asserts every mode returns at most
`topK` results, but in hybrid mode `search` sends the empty options
object (no `top`, no vector query), so a backend that honours `top`
whenever it is set (and otherwise serves its default page of 50) returns
more than `topK` results: with `topK = 1` and two stored documents the
hybrid-mode search returns two results. -/
theorem C3_counterexample :
    (∀ (req : SearchRequest) (t : Nat), req.opts.top = some t →
        (demoBackend req).length ≤ t)
    ∧ (search demoBackend () (fun _ => some ()) "c" [1]
        (some hybridDemoOptions)).length = 2
    ∧ ¬ ((search demoBackend () (fun _ => some ()) "c" [1]
          (some hybridDemoOptions)).length ≤ effectiveTopK (some hybridDemoOptions)) := by
  refine ⟨?_, ?_, ?_⟩
  · intro req t ht
    unfold demoBackend
    rw [ht, Option.getD_some]
    exact List.length_take_le t _
  · rfl
  · decide

/-- C3 amended: `search` supports the vector and text modes and there
returns at most `effectiveTopK` results (10 when options or `topK` are
missing) against any backend that honours the `top` bound it is sent; in
any other mode (the hybrid branch is an unimplemented TODO) the request
carries no `top` bound and no vector query, so the result size is not
limited by `topK`; and the separate `hybridSearch` operation always
throws. -/
theorem C3_search_modes (backend : SearchRequest → List (RawDoc × Option ℚ))
    (hb : ∀ req t, req.opts.top = some t → (backend req).length ≤ t)
    {J : Type} (jempty : J) (parseJson : String → Option J)
    (collectionName : String) (queryVector : List ℚ) (options : Option SearchOptions) :
    ((options.bind (fun o => o.type) = some "vector"
        ∨ options.bind (fun o => o.type) = some "text") →
      (search backend jempty parseJson collectionName queryVector options).length
        ≤ effectiveTopK options)
    ∧ ((options = none ∨ options.bind (fun o => o.topK) = none) →
        effectiveTopK options = 10)
    ∧ (¬ (options.bind (fun o => o.type) = some "vector"
        ∨ options.bind (fun o => o.type) = some "text") →
        (buildSearchOptions options queryVector).top = none
        ∧ (buildSearchOptions options queryVector).vectorQueries = [])
    ∧ (∀ (A B R : Type) (searchRequests : List A) (options2 : Option B),
        @hybridSearch A B R collectionName searchRequests options2
          = .error "Hybrid search is not supported for Azure AI Search") := by
  refine ⟨?_, ?_, ?_, ?_⟩
  · intro h
    unfold search
    rw [List.length_map]
    exact hb _ _ (buildSearchOptions_top_of_mode options queryVector h)
  · intro h
    rcases h with h | h
    · rw [h]
      rfl
    · cases options with
      | none => rfl
      | some o =>
        simp only [Option.some_bind] at h
        simp [effectiveTopK, h]
  · intro h
    exact ⟨(buildSearchOptions_hybrid options queryVector h).1,
      (buildSearchOptions_hybrid options queryVector h).2.1⟩
  · intro A B R searchRequests options2
    rfl

/-- C3 amended witness: the vector mode at the concrete top-honouring
backend returns at most `topK = 1` results. -/
theorem C3_witness :
    (search demoBackend () (fun _ => some ()) "c" [1]
        (some vectorDemoOptions)).length ≤ effectiveTopK (some vectorDemoOptions) :=
  (C3_search_modes demoBackend
    (fun req t ht => by
      unfold demoBackend
      rw [ht, Option.getD_some]
      exact List.length_take_le t _)
    () (fun _ => some ()) "c" [1] (some vectorDemoOptions)).1 (Or.inl rfl)

theorem listFilePathsLoop_eq (docs : List RawDoc) (batchSize : Nat)
    (hb : 1 ≤ batchSize) :
    ∀ (n skip : Nat) (acc : Finset String), docs.length - skip ≤ n →
      listFilePathsLoop docs batchSize skip acc
        = acc ∪ ((docs.drop skip).filterMap truthyPath).toFinset := by
  intro n
  induction n with
  | zero =>
    intro skip acc hn
    have hdrop : docs.drop skip = [] := List.drop_eq_nil_iff.mpr (by omega)
    rw [listFilePathsLoop, dif_pos (by simp [pageAt, hdrop])]
    simp [hdrop]
  | succ n ih =>
    intro skip acc hn
    by_cases hpage : pageAt docs batchSize skip = []
    · rw [listFilePathsLoop, dif_pos hpage]
      have hdrop : docs.drop skip = [] := by
        rcases List.take_eq_nil_iff.mp hpage with h | h
        · exact absurd h (by omega)
        · exact h
      simp [hdrop]
    · rw [listFilePathsLoop, dif_neg hpage]
      by_cases hlen : (pageAt docs batchSize skip).length < batchSize
      · rw [dif_pos hlen]
        have hmin : (pageAt docs batchSize skip).length
            = min batchSize (docs.drop skip).length := by
          simp [pageAt]
        have hple : (docs.drop skip).length ≤ batchSize := by omega
        have hpage_eq : pageAt docs batchSize skip = docs.drop skip :=
          List.take_of_length_le hple
        rw [hpage_eq]
      · rw [dif_neg hlen]
        have hskip : skip < docs.length := by
          by_contra hc
          apply hpage
          have hd : docs.drop skip = [] := List.drop_eq_nil_iff.mpr (by omega)
          simp [pageAt, hd]
        rw [ih (skip + batchSize) _ (by omega)]
        have hsplit : docs.drop skip
            = pageAt docs batchSize skip ++ docs.drop (skip + batchSize) := by
          rw [pageAt, ← List.drop_drop]
          exact (List.take_append_drop batchSize (docs.drop skip)).symm
        rw [hsplit, List.filterMap_append, List.toFinset_append, Finset.union_assoc]

/-- C5: against the paging backend (`top = batchSize`, advancing `skip`
by `batchSize`, empty page exactly at exhaustion), `listFilePaths`
terminates and returns exactly the set of distinct non-empty
`relativePath` values over all documents of the collection, for every
positive `batchSize`. -/
theorem C5_listFilePaths_exact (collections : String → List RawDoc)
    (collectionName : String) (batchSize : Nat) (hb : 1 ≤ batchSize) :
    listFilePaths collections collectionName batchSize
      = ((collections (jsLower collectionName)).filterMap truthyPath).toFinset := by
  unfold listFilePaths
  rw [listFilePathsLoop_eq _ _ hb
    (collections (jsLower collectionName)).length 0 ∅ (by omega)]
  simp

/-- C5 witness: a five-document collection with a duplicated path, an
empty path and a missing path, paged two at a time, yields exactly the
two distinct non-empty paths. -/
theorem C5_witness :
    listFilePaths
      (fun _ =>
        [⟨some "x", none, some "a.ts", none, none, none, none⟩,
         ⟨some "y", none, some "b.ts", none, none, none, none⟩,
         ⟨some "z", none, some "a.ts", none, none, none, none⟩,
         ⟨some "w", none, some "", none, none, none, none⟩,
         ⟨some "v", none, none, none, none, none, none⟩])
      "Repo" 2 = {"a.ts", "b.ts"} := by
  rw [C5_listFilePaths_exact _ _ _ (by decide)]
  decide

/-- C6: in `switchAzureAISearchAlias`, the old collection is deleted
only on the success path and only after the grace-period sleep — any
trace containing a `deleteIndex` event is exactly the success trace, in
which the ten-second sleep precedes the deletion; and when the alias PUT
does not report success (a non-2xx-above-200 status, or a thrown
request error, or an earlier GET failure) no `deleteIndex` event occurs
at all. -/
theorem C6_grace_period_before_delete (o : SwitchOracle)
    (aliasName newIndexName : String) :
    (∀ ix, Ev.deleteIndex ix ∈ (switchAzureAISearchAlias o aliasName newIndexName).1 →
        (switchAzureAISearchAlias o aliasName newIndexName).1
          = [.getAlias aliasName, .putAlias aliasName newIndexName,
             .sleepMs 10000, .deleteIndex ix])
    ∧ (∀ status, o.putAliasResult = .ok status → ¬ (200 < status ∧ status < 300) →
        ∀ ix, Ev.deleteIndex ix ∉ (switchAzureAISearchAlias o aliasName newIndexName).1)
    ∧ (∀ e, o.putAliasResult = .error e →
        ∀ ix, Ev.deleteIndex ix ∉ (switchAzureAISearchAlias o aliasName newIndexName).1)
    ∧ (∀ e, o.getAliasResult = .error e →
        ∀ ix, Ev.deleteIndex ix ∉ (switchAzureAISearchAlias o aliasName newIndexName).1) := by
  obtain ⟨gr, pr, dr⟩ := o
  cases gr with
  | error e =>
    refine ⟨?_, ?_, ?_, ?_⟩
    · intro ix hmem
      simp [switchAzureAISearchAlias] at hmem
    · intro status _ _ ix
      simp [switchAzureAISearchAlias]
    · intro e2 _ ix
      simp [switchAzureAISearchAlias]
    · intro e2 _ ix
      simp [switchAzureAISearchAlias]
  | ok idxs =>
    cases pr with
    | error e =>
      refine ⟨?_, ?_, ?_, ?_⟩
      · intro ix hmem
        simp [switchAzureAISearchAlias] at hmem
      · intro status hok
        cases hok
      · intro e2 he2 ix
        simp [switchAzureAISearchAlias]
      · intro e2 he2
        cases he2
    | ok status =>
      by_cases hs : 200 < status ∧ status < 300
      · refine ⟨?_, ?_, ?_, ?_⟩
        · intro ix hmem
          simp only [switchAzureAISearchAlias, if_pos hs] at hmem ⊢
          simp only [List.mem_cons, List.mem_singleton] at hmem
          rcases hmem with h | h | h | h | h
          · cases h
          · cases h
          · cases h
          · rw [Ev.deleteIndex.inj h]
          · cases h
        · intro status2 hok hns ix
          injection hok with he
          exact absurd hs (he ▸ hns)
        · intro e2 he2
          cases he2
        · intro e2 he2
          cases he2
      · refine ⟨?_, ?_, ?_, ?_⟩
        · intro ix hmem
          simp only [switchAzureAISearchAlias, if_neg hs] at hmem
          simp at hmem
        · intro status2 hok hns ix
          simp only [switchAzureAISearchAlias, if_neg hs]
          simp
        · intro e2 he2
          cases he2
        · intro e2 he2
          cases he2

/-- C6 witness: with a successful PUT (status 204) the trace is the
success trace, so the sleep precedes the deletion of the old index. -/
theorem C6_witness :
    (switchAzureAISearchAlias ⟨.ok ["old-index"], .ok 204, .ok ()⟩ "alias" "new-index").1
      = [.getAlias "alias", .putAlias "alias" "new-index",
         .sleepMs 10000, .deleteIndex "old-index"] :=
  (C6_grace_period_before_delete ⟨.ok ["old-index"], .ok 204, .ok ()⟩
    "alias" "new-index").1 "old-index" (by decide)

/-- C1: in the alias-swap run `indexCodePathForRepo`, the alias PUT can
only appear in the trace when both the indexing run and the snapshot
generation succeeded; and whenever either of them fails, the
alias-switch helper is never invoked (no alias GET or PUT occurs), the
alias keeps pointing at its previous target, and the run propagates the
error. -/
theorem C1_alias_written_only_after_success (o : RepoOracle)
    (aliasName collectionName init : String) :
    (∀ a ix, Ev.putAlias a ix ∈ (indexCodePathForRepo o aliasName collectionName).1 →
        o.indexCodebaseResult = .ok () ∧ o.generateSnapshotResult = .ok ())
    ∧ ((o.indexCodebaseResult.isOk = false ∨ o.generateSnapshotResult.isOk = false) →
        (∀ a ix, Ev.putAlias a ix ∉ (indexCodePathForRepo o aliasName collectionName).1)
        ∧ (∀ a, Ev.getAlias a ∉ (indexCodePathForRepo o aliasName collectionName).1)
        ∧ aliasTarget init (indexCodePathForRepo o aliasName collectionName).1 = init
        ∧ (indexCodePathForRepo o aliasName collectionName).2.isOk = false) := by
  obtain ⟨hr, cr, ir, sr, so⟩ := o
  cases hr with
  | error e =>
    constructor
    · intro a ix h
      simp [indexCodePathForRepo] at h
    · intro _
      refine ⟨?_, ?_, ?_, ?_⟩
      · intro a ix
        simp [indexCodePathForRepo]
      · intro a
        simp [indexCodePathForRepo]
      · rfl
      · rfl
  | ok hasExistingIndex =>
    cases ir with
    | error e =>
      cases hasExistingIndex with
      | false =>
        constructor
        · intro a ix h
          simp [indexCodePathForRepo] at h
        · intro _
          refine ⟨?_, ?_, ?_, ?_⟩
          · intro a ix
            simp [indexCodePathForRepo]
          · intro a
            simp [indexCodePathForRepo]
          · rfl
          · rfl
      | true =>
        cases cr with
        | error e2 =>
          constructor
          · intro a ix h
            simp [indexCodePathForRepo] at h
          · intro _
            refine ⟨?_, ?_, ?_, ?_⟩
            · intro a ix
              simp [indexCodePathForRepo]
            · intro a
              simp [indexCodePathForRepo]
            · rfl
            · rfl
        | ok u =>
          cases u
          constructor
          · intro a ix h
            simp [indexCodePathForRepo] at h
          · intro _
            refine ⟨?_, ?_, ?_, ?_⟩
            · intro a ix
              simp [indexCodePathForRepo]
            · intro a
              simp [indexCodePathForRepo]
            · rfl
            · rfl
    | ok u =>
      cases u
      cases sr with
      | error e =>
        cases hasExistingIndex with
        | false =>
          constructor
          · intro a ix h
            simp [indexCodePathForRepo] at h
          · intro _
            refine ⟨?_, ?_, ?_, ?_⟩
            · intro a ix
              simp [indexCodePathForRepo]
            · intro a
              simp [indexCodePathForRepo]
            · rfl
            · rfl
        | true =>
          cases cr with
          | error e2 =>
            constructor
            · intro a ix h
              simp [indexCodePathForRepo] at h
            · intro _
              refine ⟨?_, ?_, ?_, ?_⟩
              · intro a ix
                simp [indexCodePathForRepo]
              · intro a
                simp [indexCodePathForRepo]
              · rfl
              · rfl
          | ok u2 =>
            cases u2
            constructor
            · intro a ix h
              simp [indexCodePathForRepo] at h
            · intro _
              refine ⟨?_, ?_, ?_, ?_⟩
              · intro a ix
                simp [indexCodePathForRepo]
              · intro a
                simp [indexCodePathForRepo]
              · rfl
              · rfl
      | ok v =>
        cases v
        have hok : ∀ P : Prop,
            ((Except.ok () : Except String Unit).isOk = false
              ∨ (Except.ok () : Except String Unit).isOk = false) → P := by
          intro P hyp
          rcases hyp with h | h <;> exact absurd h (by decide)
        cases hasExistingIndex with
        | false =>
          constructor
          · intro a ix _
            exact ⟨rfl, rfl⟩
          · intro hyp
            exact hok _ hyp
        | true =>
          cases cr with
          | error e2 =>
            constructor
            · intro a ix h
              simp [indexCodePathForRepo] at h
            · intro _
              refine ⟨?_, ?_, ?_, ?_⟩
              · intro a ix
                simp [indexCodePathForRepo]
              · intro a
                simp [indexCodePathForRepo]
              · rfl
              · rfl
          | ok u2 =>
            cases u2
            constructor
            · intro a ix _
              exact ⟨rfl, rfl⟩
            · intro hyp
              exact hok _ hyp

/-- C1 witness: a run whose indexing step throws produces a trace
without any alias GET or PUT, leaves the alias on its previous target,
and propagates the error. -/
theorem C1_witness :
    (∀ a ix, Ev.putAlias a ix ∉ (indexCodePathForRepo
        ⟨.ok false, .ok (), .error "embedding failed", .ok (),
          ⟨.ok [], .ok 204, .ok ()⟩⟩ "alias" "coll").1)
    ∧ (∀ a, Ev.getAlias a ∉ (indexCodePathForRepo
        ⟨.ok false, .ok (), .error "embedding failed", .ok (),
          ⟨.ok [], .ok 204, .ok ()⟩⟩ "alias" "coll").1)
    ∧ aliasTarget "old" (indexCodePathForRepo
        ⟨.ok false, .ok (), .error "embedding failed", .ok (),
          ⟨.ok [], .ok 204, .ok ()⟩⟩ "alias" "coll").1 = "old"
    ∧ (indexCodePathForRepo
        ⟨.ok false, .ok (), .error "embedding failed", .ok (),
          ⟨.ok [], .ok 204, .ok ()⟩⟩ "alias" "coll").2.isOk = false :=
  (C1_alias_written_only_after_success
    ⟨.ok false, .ok (), .error "embedding failed", .ok (),
      ⟨.ok [], .ok 204, .ok ()⟩⟩ "alias" "coll" "old").2 (Or.inl (by decide))

theorem progressLogTimes_chain (events : List (Nat × IndexProgress)) :
    ∀ lastLogTime : Nat,
      List.Chain' (fun a b => a + LOG_INTERVAL ≤ b) (progressLogTimes lastLogTime events)
      ∧ (∀ x, (progressLogTimes lastLogTime events).head? = some x →
          lastLogTime + LOG_INTERVAL ≤ x) := by
  induction events with
  | nil =>
    intro lastLogTime
    constructor
    · simp [progressLogTimes]
    · intro x hx
      simp [progressLogTimes] at hx
  | cons e rest ih =>
    intro lastLogTime
    obtain ⟨now, p⟩ := e
    have hI : 1 ≤ LOG_INTERVAL := by decide
    by_cases hc : LOG_INTERVAL ≤ now - lastLogTime
    · constructor
      · simp only [progressLogTimes, if_pos hc]
        rw [List.chain'_cons']
        constructor
        · intro y hy
          exact (ih now).2 y (Option.mem_def.mp hy)
        · exact (ih now).1
      · intro x hx
        simp only [progressLogTimes, if_pos hc, List.head?_cons,
          Option.some.injEq] at hx
        omega
    · constructor
      · simp only [progressLogTimes, if_neg hc]
        exact (ih lastLogTime).1
      · intro x hx
        simp only [progressLogTimes, if_neg hc] at hx
        exact (ih lastLogTime).2 x hx

/-- C7: over any sequence of timed progress reports, the throttled
handler of `indexCodePathForRepo` logs at most once per throttling
interval (consecutive log times are at least `LOG_INTERVAL` apart), and
for a run satisfying the terminal-report contract of the orchestrator
the caller-supplied callback observes a report at 100 percent regardless
of the throttle state. -/
theorem C7_throttle_and_terminal_report (events : List (Nat × IndexProgress))
    (hterm : TerminalRun events) :
    List.Chain' (fun a b => a + LOG_INTERVAL ≤ b) (progressLogTimes 0 events)
    ∧ ∃ p ∈ callbackInvocations events, p.percentage = 100 := by
  constructor
  · exact (progressLogTimes_chain events 0).1
  · obtain ⟨e, hlast, hp⟩ := hterm
    exact ⟨e.2, List.mem_map_of_mem _ (List.mem_of_getLast?_eq_some hlast), hp⟩

/-- C7 witness: a concrete run with three reports, whose last report
carries 100 percent, has throttled log times and an observed terminal
report. -/
theorem C7_witness :
    List.Chain' (fun a b => a + LOG_INTERVAL ≤ b)
      (progressLogTimes 0
        [(5, ⟨"scanning", 1⟩), (60000, ⟨"embedding", 50⟩), (60001, ⟨"finalizing", 100⟩)])
    ∧ ∃ p ∈ callbackInvocations
        [(5, ⟨"scanning", 1⟩), (60000, ⟨"embedding", 50⟩), (60001, ⟨"finalizing", 100⟩)],
        p.percentage = 100 :=
  C7_throttle_and_terminal_report
    [(5, ⟨"scanning", 1⟩), (60000, ⟨"embedding", 50⟩), (60001, ⟨"finalizing", 100⟩)]
    ⟨(60001, ⟨"finalizing", 100⟩), rfl, rfl⟩

end CodeAgent
